import Mathlib

/-!
Shallow embedding of the `circuitbreaker` Go package
(`circuitbreaker.go`, `options.go`) and proofs about it.

Modelling conventions:
* Go `int64` fields become `Int` (the counters and config values never get
  near the 2^63 wrap on the traces quantified over, so wrap-around is not
  modelled).
* The `Clock` interface is replaced by explicit `now : Int` parameters: every
  `clock.Now().UnixNano()` read in the source becomes one `now` argument of
  the embedded function.
* `rand.Intn(90)` is modelled by an oracle draw `r : Nat` with
  `Intn 90 r = r % 90`.
* `time.Timer` values are modelled by their duration in nanoseconds
  (`Option Int`: `none` is a nil timer).
* The probe semaphore `probeSem` (a buffered channel of capacity
  `maximumProbes`) is modelled by its occupancy `probesHeld : Nat`; a
  non-blocking send succeeds iff `probesHeld < maximumProbes`, a receive
  decrements the occupancy.
* Concurrency: the functions below are the sequential (single caller)
  semantics; the `CompareAndSwap` in `allow`'s Open branch therefore always
  succeeds when `state = Open`, and the CAS-failure retry branch is
  unreachable.  Claim C6's concurrent probe budget is treated by an explicit
  interleaving event system (`Sys`, `stepEvent`) further down.
* The user function `fn` passed to `Execute` is modelled by its return value
  `fnErr : Option E` (`none` = success); the `fnCalls` field of the result
  counts how many times `fn` was invoked during the call.
-/

namespace CircuitBreakerProof

/-- One nanosecond per unit; `msNs` is `time.Millisecond` in nanoseconds. -/
def msNs : Int := 1000000

/-- `rand.Intn 90`, driven by the oracle draw `r`. -/
def Intn90 (r : Nat) : Nat := r % 90

/-- A deterministic clock is a value the breaker merely stores
(`config.clock`); its observations appear as explicit `now` arguments, so
the stored value is just data. -/
abbrev ClockM := List Int

/-- The production wall clock; its observations are not modelled (they enter
through the explicit `now` arguments). -/
def realClockM : ClockM := []

/-- `type State int64` with `Closed = 0`, `Open = 1`, `HalfOpen = 2`. -/
inductive BState where
  | Closed
  | Open
  | HalfOpen
deriving DecidableEq, Repr

/-- `type config struct` from `options.go` (durations in nanoseconds). -/
structure Config where
  resetTimer : Int
  cooldownTimer : Int
  successToClose : Int
  windowSize : Int
  maximumProbes : Int
  failureThreshold : Int
  clock : ClockM
deriving DecidableEq, Repr

/-- `defaultConfig()` from `options.go`. -/
def defaultConfig : Config where
  resetTimer := 60 * 1000000000
  cooldownTimer := 120 * 1000000000
  successToClose := 5
  windowSize := 240 * 1000000000
  maximumProbes := 1
  failureThreshold := 3
  clock := realClockM

/-- The mutable fields of `type circuitBreaker struct`:
`state`, `failureCount`, `successCount`, the occupancy of `probeSem`, and
`halfOpenWhen` (the `cooldown` field is read from the config). -/
structure CB where
  state : BState
  failureCount : Int
  successCount : Int
  probesHeld : Nat
  halfOpenWhen : Int
deriving DecidableEq, Repr

/-- A freshly constructed breaker (`newCircuitBreaker`): state `Closed`,
all atomics zero, semaphore empty. -/
def freshBreaker : CB where
  state := .Closed
  failureCount := 0
  successCount := 0
  probesHeld := 0
  halfOpenWhen := 0

/-- `type allowResult struct`; `timer` is the duration of the returned
`*time.Timer` (`none` = nil timer). -/
structure AllowResult where
  allowed : Bool
  hasProbe : Bool
  timer : Option Int
deriving DecidableEq, Repr

/-- The duration of the randomized backoff timer
`time.NewTimer(time.Duration(rand.Intn(90)) * time.Millisecond)`. -/
def backoffTimer (r : Nat) : Int := (Intn90 r : Int) * msNs

/-- `func (cb *circuitBreaker) allow() allowResult`.

`now` is the value of `cb.clock.Now().UnixNano()` in the Open branch and
`r` the PRNG draw.  In this sequential semantics the
`CompareAndSwap(Open, HalfOpen)` always succeeds, so the retry-on-CAS-failure
branch of the source is unreachable and not represented. -/
def allow (cfg : Config) (now : Int) (r : Nat) (cb : CB) : AllowResult × CB :=
  match cb.state with
  | .Closed => ({ allowed := true, hasProbe := false, timer := none }, cb)
  | .HalfOpen =>
      if (cb.probesHeld : Int) < cfg.maximumProbes then
        ({ allowed := true, hasProbe := true, timer := none },
         { cb with probesHeld := cb.probesHeld + 1 })
      else
        ({ allowed := false, hasProbe := false, timer := some (backoffTimer r) }, cb)
  | .Open =>
      let halfOpenAt := cb.halfOpenWhen
      if halfOpenAt ≤ now then
        let cb' : CB := { cb with state := .HalfOpen }
        if (cb'.probesHeld : Int) < cfg.maximumProbes then
          ({ allowed := true, hasProbe := true, timer := none },
           { cb' with probesHeld := cb'.probesHeld + 1 })
        else
          ({ allowed := false, hasProbe := false, timer := some (backoffTimer r) }, cb')
      else
        ({ allowed := false, hasProbe := false, timer := some (halfOpenAt - now) }, cb)

/-- `func (cb *circuitBreaker) toState(newState State)`; `now` is the clock
read `cb.clock.Now()` performed when entering Open. -/
def toState (cfg : Config) (now : Int) (newState : BState) (cb : CB) : CB :=
  let cb' : CB := { cb with state := newState, failureCount := 0, successCount := 0 }
  if newState = .Open then { cb' with halfOpenWhen := now + cfg.cooldownTimer } else cb'

/-- `func (cb *circuitBreaker) releaseProbe()`: one receive from `probeSem`. -/
def releaseProbe (cb : CB) : CB := { cb with probesHeld := cb.probesHeld - 1 }

/-- The outcome-recording half of `Execute` (source lines after `fn`
returns): `st` is the value of `State(cb.state.Load())` read before the
branch, `err` the return value of `fn`. -/
def record {E : Type} (cfg : Config) (now : Int) (st : BState) (err : Option E)
    (cb : CB) : CB :=
  match err with
  | some _ =>
      let failures := cb.failureCount + 1
      let cb' : CB := { cb with failureCount := failures }
      if st = .Closed ∧ cfg.failureThreshold ≤ failures then
        toState cfg now .Open cb'
      else if st = .HalfOpen then
        toState cfg now .Open cb'
      else cb'
  | none =>
      let successes := cb.successCount + 1
      let cb' : CB := { cb with successCount := successes }
      if st = .HalfOpen ∧ cfg.successToClose ≤ successes then
        toState cfg now .Closed cb'
      else cb'

/-- Result of one `Execute` call: the returned timer (duration or nil), the
returned error, and how many times `fn` was invoked during the call. -/
structure ExecResult (E : Type) where
  timer : Option Int
  err : Option E
  fnCalls : Nat
deriving DecidableEq, Repr

/-- `func (cb *circuitBreaker) Execute(ctx, fn) (*time.Timer, error)`.

`fnErr` is the value `fn` returns if invoked.  When admission is denied the
source returns `(ar.timer, nil)` without calling `fn`; otherwise `fn` runs
exactly once, the outcome is recorded, a held probe is released, and
`(nil, err)` is returned. -/
def Execute {E : Type} (cfg : Config) (now : Int) (r : Nat) (fnErr : Option E)
    (cb : CB) : ExecResult E × CB :=
  let arcb := allow cfg now r cb
  let ar := arcb.1
  let cb1 := arcb.2
  if ar.allowed = false then
    ({ timer := ar.timer, err := none, fnCalls := 0 }, cb1)
  else
    let err := fnErr
    let st := cb1.state
    let cb2 := record cfg now st err cb1
    let cb3 := if ar.hasProbe then releaseProbe cb2 else cb2
    ({ timer := none, err := err, fnCalls := 1 }, cb3)

/-! ### Basic lemmas about `allow` and `Execute` (shared by several claims) -/

theorem allow_allowed_iff_timer_none (cfg : Config) (now : Int) (r : Nat) (cb : CB) :
    (allow cfg now r cb).1.allowed = true ↔ (allow cfg now r cb).1.timer = none := by
  rcases cb with ⟨st, fc, sc, ph, ho⟩
  cases st <;> simp only [allow] <;> split_ifs <;> simp

theorem execute_admitted {E : Type} (cfg : Config) (now : Int) (r : Nat)
    (fnErr : Option E) (cb : CB) (h : (allow cfg now r cb).1.allowed = true) :
    (Execute cfg now r fnErr cb).1 = ⟨none, fnErr, 1⟩ := by
  unfold Execute
  simp [h]

theorem execute_denied {E : Type} (cfg : Config) (now : Int) (r : Nat)
    (fnErr : Option E) (cb : CB) (h : (allow cfg now r cb).1.allowed = false) :
    (Execute cfg now r fnErr cb).1 = ⟨(allow cfg now r cb).1.timer, none, 0⟩ ∧
    (Execute cfg now r fnErr cb).2 = (allow cfg now r cb).2 := by
  unfold Execute
  simp [h]

/-- C1: for every `Execute(ctx, fn)` call, if the returned retry timer is
non-nil then `fn` was invoked zero times and the returned error is nil, and
if the returned timer is nil then `fn` was invoked exactly once and the
returned error is exactly `fn`'s return value (which may be nil). -/
theorem execute_timer_dichotomy {E : Type} (cfg : Config) (now : Int) (r : Nat)
    (fnErr : Option E) (cb : CB) :
    ((Execute cfg now r fnErr cb).1.timer ≠ none →
        (Execute cfg now r fnErr cb).1.fnCalls = 0 ∧
        (Execute cfg now r fnErr cb).1.err = none) ∧
    ((Execute cfg now r fnErr cb).1.timer = none →
        (Execute cfg now r fnErr cb).1.fnCalls = 1 ∧
        (Execute cfg now r fnErr cb).1.err = fnErr) := by
  have hiff := allow_allowed_iff_timer_none cfg now r cb
  by_cases hA : (allow cfg now r cb).1.allowed = true
  · have ht := execute_admitted cfg now r fnErr cb hA
    rw [ht]
    simp
  · have hf : (allow cfg now r cb).1.allowed = false := by
      cases hb : (allow cfg now r cb).1.allowed
      · rfl
      · exact absurd hb hA
    have ht := (execute_denied cfg now r fnErr cb hf).1
    rw [ht]
    have hne : (allow cfg now r cb).1.timer ≠ none := fun hn => hA (hiff.mpr hn)
    simp [hne]

/-- Closed-input check for `execute_timer_dichotomy`: on a fresh breaker the
call is admitted, `fn` runs once and its error comes back verbatim. -/
theorem execute_timer_dichotomy_witness :
    (Execute (E := Nat) defaultConfig 0 0 (some 7) freshBreaker).1.fnCalls = 1 ∧
    (Execute (E := Nat) defaultConfig 0 0 (some 7) freshBreaker).1.err = some 7 :=
  (execute_timer_dichotomy defaultConfig 0 0 (some 7) freshBreaker).2 (by decide)

/-! ### C2: tripping a fresh Closed breaker -/

/-- `n` consecutive `Execute` calls whose `fn` returns the error `e`
(same clock reading and PRNG draw for every call). -/
def executeFailN {E : Type} (cfg : Config) (now : Int) (r : Nat) (e : E) :
    Nat → CB → CB
  | 0, cb => cb
  | n + 1, cb => (Execute cfg now r (some e) (executeFailN cfg now r e n cb)).2

theorem allow_open_waiting (cfg : Config) (now : Int) (r : Nat) (fc sc : Int)
    (ph : Nat) (ho : Int) (h : now < ho) :
    allow cfg now r ⟨.Open, fc, sc, ph, ho⟩ =
      ({ allowed := false, hasProbe := false, timer := some (ho - now) },
       ⟨.Open, fc, sc, ph, ho⟩) := by
  have hne : ¬ ho ≤ now := by omega
  simp [allow, hne]

theorem execute_fail_closed_noTrip {E : Type} (cfg : Config) (now : Int) (r : Nat)
    (e : E) (fc sc : Int) (ph : Nat) (ho : Int)
    (h : fc + 1 < cfg.failureThreshold) :
    (Execute cfg now r (some e) ⟨.Closed, fc, sc, ph, ho⟩).2 =
      ⟨.Closed, fc + 1, sc, ph, ho⟩ := by
  have hne : ¬ cfg.failureThreshold ≤ fc + 1 := by omega
  simp [Execute, allow, record, hne]

theorem execute_fail_closed_trip {E : Type} (cfg : Config) (now : Int) (r : Nat)
    (e : E) (fc sc : Int) (ph : Nat) (ho : Int)
    (h : cfg.failureThreshold ≤ fc + 1) :
    (Execute cfg now r (some e) ⟨.Closed, fc, sc, ph, ho⟩).2 =
      ⟨.Open, 0, 0, ph, now + cfg.cooldownTimer⟩ := by
  simp [Execute, allow, record, toState, h]

theorem execute_open_waiting {E : Type} (cfg : Config) (now : Int) (r : Nat)
    (fnErr : Option E) (fc sc : Int) (ph : Nat) (ho : Int) (h : now < ho) :
    (Execute cfg now r fnErr ⟨.Open, fc, sc, ph, ho⟩).2 = ⟨.Open, fc, sc, ph, ho⟩ := by
  have hd := execute_denied cfg now r fnErr ⟨.Open, fc, sc, ph, ho⟩
    (by rw [allow_open_waiting cfg now r fc sc ph ho h])
  rw [hd.2, allow_open_waiting cfg now r fc sc ph ho h]

theorem executeFailN_closed_form {E : Type} (cfg : Config) (now : Int) (r : Nat)
    (e : E) (hth : 1 ≤ cfg.failureThreshold) (hcd : 0 < cfg.cooldownTimer) (n : Nat) :
    executeFailN cfg now r e n freshBreaker =
      if (n : Int) < cfg.failureThreshold then
        ⟨.Closed, (n : Int), 0, 0, 0⟩
      else ⟨.Open, 0, 0, 0, now + cfg.cooldownTimer⟩ := by
  induction n with
  | zero =>
      rw [if_pos (by omega)]
      rfl
  | succ n ih =>
      show (Execute cfg now r (some e) (executeFailN cfg now r e n freshBreaker)).2 = _
      by_cases h1 : ((n : Int) + 1) < cfg.failureThreshold
      · rw [ih, if_pos (by omega),
          execute_fail_closed_noTrip cfg now r e (n : Int) 0 0 0 (by omega),
          if_pos (by push_cast; omega)]
        push_cast
        rfl
      · by_cases h2 : (n : Int) < cfg.failureThreshold
        · rw [ih, if_pos h2,
            execute_fail_closed_trip cfg now r e (n : Int) 0 0 0 (by omega),
            if_neg (by push_cast; omega)]
        · rw [ih, if_neg h2, if_neg (by push_cast; omega)]
          exact execute_open_waiting cfg now r (some e) 0 0 0 _ (by omega)

/-- C2: recording at least `failureThreshold` failures on a fresh Closed
breaker (via admitted `Execute` calls) transitions it to Open, zeroes both
counters, sets `halfOpenAt = now + cooldownTimer`, and a subsequent `allow()`
before that instant observes Open and denies admission. -/
theorem closed_breaker_trips_open {E : Type} (cfg : Config) (now now' : Int)
    (r r' : Nat) (e : E) (n : Nat)
    (hth : 1 ≤ cfg.failureThreshold) (hcd : 0 < cfg.cooldownTimer)
    (hn : cfg.failureThreshold ≤ (n : Int))
    (hnow' : now' < now + cfg.cooldownTimer) :
    (executeFailN cfg now r e n freshBreaker).state = .Open ∧
    (executeFailN cfg now r e n freshBreaker).failureCount = 0 ∧
    (executeFailN cfg now r e n freshBreaker).successCount = 0 ∧
    (executeFailN cfg now r e n freshBreaker).halfOpenWhen = now + cfg.cooldownTimer ∧
    (allow cfg now' r' (executeFailN cfg now r e n freshBreaker)).1.allowed = false ∧
    (allow cfg now' r' (executeFailN cfg now r e n freshBreaker)).2.state = .Open := by
  have hcf := executeFailN_closed_form cfg now r e hth hcd n
  rw [if_neg (by omega)] at hcf
  rw [hcf]
  have ha := allow_open_waiting cfg now' r' 0 0 0 (now + cfg.cooldownTimer) hnow'
  refine ⟨rfl, rfl, rfl, rfl, ?_, ?_⟩
  · rw [ha]
  · rw [ha]

/-- Closed-input check for `closed_breaker_trips_open`: four failures on the
default configuration (threshold 3) leave the breaker Open with zeroed
counters and `halfOpenAt = 120 s`, and `allow()` at `now = 5 ns` denies. -/
theorem closed_breaker_trips_open_witness :
    (executeFailN defaultConfig 0 0 (0 : Nat) 4 freshBreaker).state = .Open ∧
    (executeFailN defaultConfig 0 0 (0 : Nat) 4 freshBreaker).failureCount = 0 ∧
    (executeFailN defaultConfig 0 0 (0 : Nat) 4 freshBreaker).successCount = 0 ∧
    (executeFailN defaultConfig 0 0 (0 : Nat) 4 freshBreaker).halfOpenWhen =
      0 + defaultConfig.cooldownTimer ∧
    (allow defaultConfig 5 0 (executeFailN defaultConfig 0 0 (0 : Nat) 4 freshBreaker)).1.allowed
      = false ∧
    (allow defaultConfig 5 0 (executeFailN defaultConfig 0 0 (0 : Nat) 4 freshBreaker)).2.state
      = .Open :=
  closed_breaker_trips_open defaultConfig 0 5 0 0 (0 : Nat) 4
    (by decide) (by decide) (by decide) (by decide)

/-! ### C3: Open denies every admission before `halfOpenAt` -/

/-- A sequence of `allow()` calls, one per `(now, r)` clock/PRNG observation;
returns the individual decisions and the final breaker state. -/
def allowN (cfg : Config) : List (Int × Nat) → CB → List AllowResult × CB
  | [], cb => ([], cb)
  | p :: rest, cb =>
      ((allow cfg p.1 p.2 cb).1 :: (allowN cfg rest (allow cfg p.1 p.2 cb).2).1,
       (allowN cfg rest (allow cfg p.1 p.2 cb).2).2)

theorem allowN_cons (cfg : Config) (p : Int × Nat) (rest : List (Int × Nat)) (cb : CB) :
    allowN cfg (p :: rest) cb =
      ((allow cfg p.1 p.2 cb).1 :: (allowN cfg rest (allow cfg p.1 p.2 cb).2).1,
       (allowN cfg rest (allow cfg p.1 p.2 cb).2).2) := rfl

/-- C3: starting from Open with `halfOpenAt = t`, as long as every clock
observation is `< t` no `allow()` call admits: each one is denied without a
probe, returns a timer of duration `t − now`, and leaves the breaker
unchanged. -/
theorem open_denies_until_halfOpenAt (cfg : Config) (cb : CB) (t : Int)
    (obs : List (Int × Nat))
    (hst : cb.state = .Open) (ht : cb.halfOpenWhen = t)
    (hobs : ∀ p ∈ obs, p.1 < t) :
    (allowN cfg obs cb).1 =
      obs.map (fun p => { allowed := false, hasProbe := false, timer := some (t - p.1) }) ∧
    (allowN cfg obs cb).2 = cb := by
  induction obs with
  | nil => exact ⟨rfl, rfl⟩
  | cons p rest ih =>
      rcases cb with ⟨st, fc, sc, ph, ho⟩
      have hst' : st = .Open := hst
      have hho : t = ho := ht.symm
      subst hst'
      subst hho
      have hp : p.1 < t := hobs p (List.mem_cons_self p rest)
      have ha := allow_open_waiting cfg p.1 p.2 fc sc ph t hp
      have ihr := ih (fun q hq => hobs q (List.mem_cons_of_mem p hq))
      rw [allowN_cons, ha]
      exact ⟨by rw [List.map_cons, ihr.1], ihr.2⟩

/-- Closed-input check for `open_denies_until_halfOpenAt`: two observations
before `t = 10` are both denied with timers `10 − now`. -/
theorem open_denies_until_halfOpenAt_witness :
    (allowN defaultConfig [(3, 0), (7, 42)] ⟨.Open, 0, 0, 0, 10⟩).1 =
      [{ allowed := false, hasProbe := false, timer := some 7 },
       { allowed := false, hasProbe := false, timer := some 3 }] ∧
    (allowN defaultConfig [(3, 0), (7, 42)] ⟨.Open, 0, 0, 0, 10⟩).2 =
      ⟨.Open, 0, 0, 0, 10⟩ := by
  have h := open_denies_until_halfOpenAt defaultConfig ⟨.Open, 0, 0, 0, 10⟩ 10
    [(3, 0), (7, 42)] rfl rfl (by decide)
  exact ⟨by rw [h.1]; rfl, h.2⟩

/-! ### C4: closing from HalfOpen after `successToClose` successes,
and C5: reopening from HalfOpen on a single failure -/

/-- `n` consecutive `Execute` calls whose `fn` succeeds. -/
def executeSuccN (cfg : Config) (now : Int) (r : Nat) : Nat → CB → CB
  | 0, cb => cb
  | n + 1, cb =>
      (Execute (E := Unit) cfg now r none (executeSuccN cfg now r n cb)).2

theorem execute_succ_halfopen_noClose (cfg : Config) (now : Int) (r : Nat)
    (fc sc : Int) (ph : Nat) (ho : Int)
    (hp : (ph : Int) < cfg.maximumProbes) (h : sc + 1 < cfg.successToClose) :
    (Execute (E := Unit) cfg now r none ⟨.HalfOpen, fc, sc, ph, ho⟩).2 =
      ⟨.HalfOpen, fc, sc + 1, ph, ho⟩ := by
  have hne : ¬ cfg.successToClose ≤ sc + 1 := by omega
  simp [Execute, allow, record, releaseProbe, hp, hne]

theorem execute_succ_halfopen_close (cfg : Config) (now : Int) (r : Nat)
    (fc sc : Int) (ph : Nat) (ho : Int)
    (hp : (ph : Int) < cfg.maximumProbes) (h : cfg.successToClose ≤ sc + 1) :
    (Execute (E := Unit) cfg now r none ⟨.HalfOpen, fc, sc, ph, ho⟩).2 =
      ⟨.Closed, 0, 0, ph, ho⟩ := by
  simp [Execute, allow, record, toState, releaseProbe, hp, h]

theorem executeSuccN_halfopen_invariant (cfg : Config) (now : Int) (r : Nat)
    (w : Int) (hp : 1 ≤ cfg.maximumProbes) (k : Nat)
    (hk : (k : Int) < cfg.successToClose) :
    executeSuccN cfg now r k ⟨.HalfOpen, 0, 0, 0, w⟩ =
      ⟨.HalfOpen, 0, (k : Int), 0, w⟩ := by
  induction k with
  | zero => rfl
  | succ k ih =>
      show (Execute (E := Unit) cfg now r none
        (executeSuccN cfg now r k ⟨.HalfOpen, 0, 0, 0, w⟩)).2 = _
      rw [ih (by push_cast at hk ⊢; omega),
        execute_succ_halfopen_noClose cfg now r 0 (k : Int) 0 w (by omega)
          (by push_cast at hk ⊢; omega)]
      push_cast
      rfl

/-- C4: after `successToClose` consecutive successful admitted executions
starting from a freshly entered HalfOpen state (counters zero, no probes
held), the breaker is Closed and both counters are zero. -/
theorem halfopen_closes_after_successes (cfg : Config) (now : Int) (r : Nat)
    (w : Int) (n : Nat)
    (hp : 1 ≤ cfg.maximumProbes) (hstc : 1 ≤ cfg.successToClose)
    (hn : (n : Int) = cfg.successToClose) :
    (executeSuccN cfg now r n ⟨.HalfOpen, 0, 0, 0, w⟩).state = .Closed ∧
    (executeSuccN cfg now r n ⟨.HalfOpen, 0, 0, 0, w⟩).failureCount = 0 ∧
    (executeSuccN cfg now r n ⟨.HalfOpen, 0, 0, 0, w⟩).successCount = 0 := by
  obtain ⟨m, rfl⟩ : ∃ m, n = m + 1 := by
    cases n with
    | zero => exfalso; push_cast at hn; omega
    | succ m => exact ⟨m, rfl⟩
  have hm : (m : Int) < cfg.successToClose := by push_cast at hn ⊢; omega
  have hstep : executeSuccN cfg now r (m + 1) ⟨.HalfOpen, 0, 0, 0, w⟩ =
      ⟨.Closed, 0, 0, 0, w⟩ := by
    show (Execute (E := Unit) cfg now r none
      (executeSuccN cfg now r m ⟨.HalfOpen, 0, 0, 0, w⟩)).2 = _
    rw [executeSuccN_halfopen_invariant cfg now r w hp m hm,
      execute_succ_halfopen_close cfg now r 0 (m : Int) 0 w (by omega)
        (by push_cast at hn ⊢; omega)]
  rw [hstep]
  exact ⟨rfl, rfl, rfl⟩

/-- Closed-input check for `halfopen_closes_after_successes`: five successes
under the default configuration (`successToClose = 5`) close the breaker. -/
theorem halfopen_closes_after_successes_witness :
    (executeSuccN defaultConfig 0 0 5 ⟨.HalfOpen, 0, 0, 0, 999⟩).state = .Closed ∧
    (executeSuccN defaultConfig 0 0 5 ⟨.HalfOpen, 0, 0, 0, 999⟩).failureCount = 0 ∧
    (executeSuccN defaultConfig 0 0 5 ⟨.HalfOpen, 0, 0, 0, 999⟩).successCount = 0 :=
  halfopen_closes_after_successes defaultConfig 0 0 999 5
    (by decide) (by decide) (by decide)

/-- C5: a single recorded (admitted) failure while in HalfOpen
unconditionally transitions the breaker to Open, zeroes both counters, and
sets `halfOpenAt = now + cooldownTimer` (the probe taken for the admission is
released). -/
theorem halfopen_failure_reopens {E : Type} (cfg : Config) (now : Int) (r : Nat)
    (e : E) (fc sc : Int) (ph : Nat) (ho : Int)
    (hp : (ph : Int) < cfg.maximumProbes) :
    (Execute cfg now r (some e) ⟨.HalfOpen, fc, sc, ph, ho⟩).2 =
      ⟨.Open, 0, 0, ph, now + cfg.cooldownTimer⟩ := by
  simp [Execute, allow, record, toState, releaseProbe, hp]

/-- Closed-input check for `halfopen_failure_reopens`: one failure in
HalfOpen at `now = 3` reopens the default breaker with
`halfOpenAt = 3 + 120 s`. -/
theorem halfopen_failure_reopens_witness :
    (Execute (E := Nat) defaultConfig 3 0 (some 1) ⟨.HalfOpen, 0, 2, 0, 50⟩).2 =
      ⟨.Open, 0, 0, 0, 3 + defaultConfig.cooldownTimer⟩ :=
  halfopen_failure_reopens defaultConfig 3 0 (1 : Nat) 0 2 0 50 (by decide)

/-! ### C6: probe budget under interleaved executions

Concurrent `Execute` calls are modelled by an interleaving event system:
a `start` event performs the `allow()` of one call (the probe acquisition is
a single channel operation in the source), a `finish` event performs the
outcome recording and probe release of one in-flight admitted call.  The
system state tracks how many in-flight admitted calls currently hold a probe
(`probeHolders`) and how many run without one (`plainRunners`). -/

structure Sys where
  cb : CB
  probeHolders : Nat
  plainRunners : Nat
deriving DecidableEq, Repr

inductive Event (E : Type) where
  | start (now : Int) (r : Nat)
  | finish (hasProbe : Bool) (now : Int) (fnErr : Option E)
deriving DecidableEq, Repr

/-- One interleaving step.  A `finish` event for a kind of in-flight call
that does not exist is ignored (it corresponds to no real execution). -/
def stepEvent {E : Type} (cfg : Config) (s : Sys) : Event E → Sys
  | .start now r =>
      let arcb := allow cfg now r s.cb
      if arcb.1.allowed then
        if arcb.1.hasProbe then
          { cb := arcb.2, probeHolders := s.probeHolders + 1,
            plainRunners := s.plainRunners }
        else
          { cb := arcb.2, probeHolders := s.probeHolders,
            plainRunners := s.plainRunners + 1 }
      else { s with cb := arcb.2 }
  | .finish hasProbe now fnErr =>
      if hasProbe then
        if 0 < s.probeHolders then
          { cb := releaseProbe (record cfg now s.cb.state fnErr s.cb),
            probeHolders := s.probeHolders - 1, plainRunners := s.plainRunners }
        else s
      else
        if 0 < s.plainRunners then
          { cb := record cfg now s.cb.state fnErr s.cb,
            probeHolders := s.probeHolders, plainRunners := s.plainRunners - 1 }
        else s

def runEvents {E : Type} (cfg : Config) : List (Event E) → Sys → Sys
  | [], s => s
  | ev :: rest, s => runEvents cfg rest (stepEvent cfg s ev)

/-- Well-formedness: the semaphore occupancy equals the number of in-flight
probe holders (each acquisition is matched by exactly one pending release),
and it never exceeds `maximumProbes`. -/
def SysWF (cfg : Config) (s : Sys) : Prop :=
  s.cb.probesHeld = s.probeHolders ∧ (s.probeHolders : Int) ≤ cfg.maximumProbes

theorem eq_false_of_ne_true {b : Bool} (h : ¬ b = true) : b = false := by
  cases b
  · rfl
  · exact absurd rfl h

theorem allow_probe_effect (cfg : Config) (now : Int) (r : Nat) (cb : CB) :
    (((allow cfg now r cb).1.hasProbe = true →
        (allow cfg now r cb).2.probesHeld = cb.probesHeld + 1 ∧
        (cb.probesHeld : Int) < cfg.maximumProbes) ∧
     ((allow cfg now r cb).1.hasProbe = false →
        (allow cfg now r cb).2.probesHeld = cb.probesHeld) ∧
     ((allow cfg now r cb).1.allowed = false →
        (allow cfg now r cb).1.hasProbe = false)) := by
  rcases cb with ⟨st, fc, sc, ph, ho⟩
  cases st <;> simp only [allow] <;> (try split_ifs) <;> simp_all

theorem record_probesHeld {E : Type} (cfg : Config) (now : Int) (st : BState)
    (err : Option E) (cb : CB) :
    (record cfg now st err cb).probesHeld = cb.probesHeld := by
  cases err <;> simp only [record, toState] <;> split_ifs <;> rfl

theorem stepEvent_wf {E : Type} (cfg : Config) (s : Sys) (ev : Event E)
    (h : SysWF cfg s) : SysWF cfg (stepEvent cfg s ev) := by
  obtain ⟨heq, hle⟩ := h
  cases ev with
  | start now r =>
      have he := allow_probe_effect cfg now r s.cb
      show SysWF cfg (if (allow cfg now r s.cb).1.allowed = true then _ else _)
      by_cases hA : (allow cfg now r s.cb).1.allowed = true
      · rw [if_pos hA]
        by_cases hP : (allow cfg now r s.cb).1.hasProbe = true
        · rw [if_pos hP]
          obtain ⟨h1, h2⟩ := he.1 hP
          constructor
          · show (allow cfg now r s.cb).2.probesHeld = s.probeHolders + 1
            rw [h1, heq]
          · show ((s.probeHolders + 1 : Nat) : Int) ≤ cfg.maximumProbes
            rw [heq] at h2
            push_cast at h2 ⊢
            omega
        · rw [if_neg hP]
          have h1 := he.2.1 (eq_false_of_ne_true hP)
          constructor
          · show (allow cfg now r s.cb).2.probesHeld = s.probeHolders
            rw [h1, heq]
          · exact hle
      · rw [if_neg hA]
        have h1 := he.2.1 (he.2.2 (eq_false_of_ne_true hA))
        constructor
        · show (allow cfg now r s.cb).2.probesHeld = s.probeHolders
          rw [h1, heq]
        · exact hle
  | finish hasProbe now fnErr =>
      cases hasProbe with
      | true =>
          show SysWF cfg (if 0 < s.probeHolders then _ else _)
          by_cases h0 : 0 < s.probeHolders
          · rw [if_pos h0]
            constructor
            · show (record cfg now s.cb.state fnErr s.cb).probesHeld - 1 =
                s.probeHolders - 1
              rw [record_probesHeld, heq]
            · show ((s.probeHolders - 1 : Nat) : Int) ≤ cfg.maximumProbes
              omega
          · rw [if_neg h0]; exact ⟨heq, hle⟩
      | false =>
          show SysWF cfg (if 0 < s.plainRunners then _ else _)
          by_cases h0 : 0 < s.plainRunners
          · rw [if_pos h0]
            constructor
            · show (record cfg now s.cb.state fnErr s.cb).probesHeld = s.probeHolders
              rw [record_probesHeld, heq]
            · exact hle
          · rw [if_neg h0]; exact ⟨heq, hle⟩

theorem runEvents_wf {E : Type} (cfg : Config) (tr : List (Event E)) (s : Sys)
    (h : SysWF cfg s) : SysWF cfg (runEvents cfg tr s) := by
  induction tr generalizing s with
  | nil => exact h
  | cons ev rest ih => exact ih (stepEvent cfg s ev) (stepEvent_wf cfg s ev h)

/-- C6: along any interleaving of `Execute` calls starting from a
well-formed state, the semaphore occupancy always equals the number of
in-flight probe holders and never exceeds `maximumProbes` (every admission
that acquired a probe releases it exactly once when its `Execute` returns);
moreover when the probe budget is exhausted in HalfOpen, `allow()` denies
without a probe and returns the randomized backoff timer
`Intn90 r` milliseconds, whose value ranges over exactly `[0, 90)` ms. -/
theorem halfopen_probe_budget {E : Type} (cfg : Config) :
    (∀ (s : Sys) (tr : List (Event E)), SysWF cfg s →
        SysWF cfg (runEvents cfg tr s)) ∧
    (∀ (now : Int) (r : Nat) (cb : CB), cb.state = .HalfOpen →
        cfg.maximumProbes ≤ (cb.probesHeld : Int) →
        (allow cfg now r cb).1 =
          { allowed := false, hasProbe := false, timer := some (backoffTimer r) } ∧
        0 ≤ backoffTimer r ∧ backoffTimer r < 90 * msNs) ∧
    (∀ k : Nat, k < 90 → backoffTimer k = (k : Int) * msNs) := by
  refine ⟨fun s tr h => runEvents_wf cfg tr s h, fun now r cb hst hfull => ?_, ?_⟩
  · rcases cb with ⟨st, fc, sc, ph, ho⟩
    have hst' : st = .HalfOpen := hst
    subst hst'
    have hge : ¬ ((ph : Nat) : Int) < cfg.maximumProbes := by
      simp only [CB.probesHeld] at hfull
      omega
    refine ⟨by simp [allow, hge], ?_, ?_⟩
    · show (0 : Int) ≤ (Intn90 r : Int) * msNs
      exact mul_nonneg (Int.ofNat_nonneg _) (by decide)
    · have h90 : (Intn90 r : Int) < 90 := by
        have := Nat.mod_lt r (show 0 < 90 by decide)
        exact_mod_cast this
      calc backoffTimer r = (Intn90 r : Int) * msNs := rfl
        _ < 90 * msNs := by
            have : 0 < msNs := by decide
            exact mul_lt_mul_of_pos_right h90 this
  · intro k hk
    show ((k % 90 : Nat) : Int) * msNs = (k : Int) * msNs
    rw [Nat.mod_eq_of_lt hk]

/-- Closed-input check for `halfopen_probe_budget`: an interleaving of two
`start`s and one `finish` on a default breaker in HalfOpen keeps the probe
invariant, and with the single probe slot taken `allow()` denies with a
5 ms backoff for the draw `r = 5`. -/
theorem halfopen_probe_budget_witness :
    SysWF defaultConfig (runEvents (E := Nat) defaultConfig
      [.start 0 0, .start 0 1, .finish true 0 none]
      ⟨⟨.HalfOpen, 0, 0, 0, 0⟩, 0, 0⟩) ∧
    (allow defaultConfig 0 5 ⟨.HalfOpen, 0, 0, 1, 0⟩).1 =
      { allowed := false, hasProbe := false, timer := some (backoffTimer 5) } ∧
    backoffTimer 5 = 5 * msNs := by
  have h := halfopen_probe_budget (E := Nat) defaultConfig
  exact ⟨h.1 ⟨⟨.HalfOpen, 0, 0, 0, 0⟩, 0, 0⟩ [.start 0 0, .start 0 1, .finish true 0 none]
      ⟨rfl, by decide⟩,
    (h.2.1 0 5 ⟨.HalfOpen, 0, 0, 1, 0⟩ rfl (by decide)).1,
    h.2.2 5 (by decide)⟩

/-! ### C7: HTTP response classification in `ExecuteHTTPBlocking` -/

/-- Errors produced inside `ExecuteHTTPBlocking`'s attempt closure:
a transport error from `client.Do`, `"retryable HTTP error: status %d"`, or
`"non-retryable HTTP error: status %d"`. -/
inductive HErr where
  | transport
  | retryableStatus (code : Nat)
  | nonRetryableStatus (code : Nat)
deriving DecidableEq, Repr

/-- The captured variables `lastResp`, `lastErr`, `wasRetryable` of
`ExecuteHTTPBlocking` after one attempt (`lastResp` is modelled by the
status code of the retained response). -/
structure AttemptVars where
  lastResp : Option Nat
  lastErr : Option HErr
  wasRetryable : Bool
deriving DecidableEq, Repr

/-- The closure `ExecuteHTTPBlocking` passes to `Execute`.
`doResult` is the outcome of `client.Do(req)`: `none` is a transport error,
`some code` a response with that status code.  Returns the captured
variables after the attempt, the error value returned to the breaker, and
whether the response body was drained and closed inside the closure. -/
def classifyAttempt (doResult : Option Nat) : AttemptVars × Option HErr × Bool :=
  match doResult with
  | none => (⟨none, some .transport, true⟩, some .transport, false)
  | some statusCode =>
      if 200 ≤ statusCode ∧ statusCode < 400 then
        (⟨some statusCode, none, false⟩, none, false)
      else if statusCode = 408 ∨ statusCode = 429 ∨
          (500 ≤ statusCode ∧ statusCode ≤ 599) then
        (⟨none, some (.retryableStatus statusCode), true⟩,
         some (.retryableStatus statusCode), true)
      else
        (⟨some statusCode, some (.nonRetryableStatus statusCode), false⟩,
         none, false)

/-- What `ExecuteHTTPBlocking` does after `Execute` returned without a
timer: return `(lastResp, lastErr)` when `execErr` is nil or when the
attempt was non-retryable, otherwise (`none`) loop for another attempt. -/
def httpReturn (vars : AttemptVars) (execErr : Option HErr) :
    Option (Option Nat × Option HErr) :=
  if execErr = none then some (vars.lastResp, vars.lastErr)
  else if vars.wasRetryable = false then some (vars.lastResp, vars.lastErr)
  else none

/-- C7: a status code in `[200, 400)` is a non-retryable success (no error
reported to the breaker, response returned to the caller with nil error);
`408`, `429` and `[500, 599]` are retryable (body drained and closed, an
error reported to the breaker, the loop continues); every other `4xx` is a
non-retryable application failure (no error reported to the breaker, so no
circuit impact, and the response is handed back with a descriptive error). -/
theorem http_status_classification (code : Nat) :
    (200 ≤ code ∧ code < 400 →
      classifyAttempt (some code) = (⟨some code, none, false⟩, none, false) ∧
      httpReturn ⟨some code, none, false⟩ none = some (some code, none)) ∧
    (code = 408 ∨ code = 429 ∨ (500 ≤ code ∧ code ≤ 599) →
      classifyAttempt (some code) =
        (⟨none, some (.retryableStatus code), true⟩,
         some (.retryableStatus code), true) ∧
      httpReturn ⟨none, some (.retryableStatus code), true⟩
        (some (.retryableStatus code)) = none) ∧
    (400 ≤ code ∧ code < 500 ∧ code ≠ 408 ∧ code ≠ 429 →
      classifyAttempt (some code) =
        (⟨some code, some (.nonRetryableStatus code), false⟩, none, false) ∧
      httpReturn ⟨some code, some (.nonRetryableStatus code), false⟩ none =
        some (some code, some (.nonRetryableStatus code))) := by
  refine ⟨fun h => ⟨?_, rfl⟩, fun h => ⟨?_, by simp [httpReturn]⟩,
    fun h => ⟨?_, rfl⟩⟩
  · show (if 200 ≤ code ∧ code < 400 then _ else _) = _
    rw [if_pos h]
  · show (if 200 ≤ code ∧ code < 400 then _ else _) = _
    rw [if_neg (by omega), if_pos h]
  · show (if 200 ≤ code ∧ code < 400 then _ else _) = _
    rw [if_neg (by omega), if_neg (by omega)]

/-- Closed-input check for `http_status_classification` at the codes
200 (success), 503 (retryable) and 404 (non-retryable app failure). -/
theorem http_status_classification_witness :
    classifyAttempt (some 200) = (⟨some 200, none, false⟩, none, false) ∧
    classifyAttempt (some 503) =
      (⟨none, some (.retryableStatus 503), true⟩, some (.retryableStatus 503), true) ∧
    classifyAttempt (some 404) =
      (⟨some 404, some (.nonRetryableStatus 404), false⟩, none, false) :=
  ⟨((http_status_classification 200).1 (by omega)).1,
   ((http_status_classification 503).2.1 (by omega)).1,
   ((http_status_classification 404).2.2 (by omega)).1⟩

/-! ### C8: `ExecuteBlocking` retries only on refused admission -/

/-- One loop iteration's oracle for `ExecuteBlocking`: the clock reading and
PRNG draw of its `Execute` call, `fn`'s return value if invoked, and whether
ctx is cancelled while waiting on a returned retry timer. -/
structure BlockStep (E : Type) where
  now : Int
  r : Nat
  fnErr : Option E
  cancelled : Bool
deriving DecidableEq, Repr

/-- What `ExecuteBlocking` returns: `fn`'s verbatim error (`result none` is
success) or the ctx cancellation error. -/
inductive BlockOutcome (E : Type) where
  | result (e : Option E)
  | ctxErr
deriving DecidableEq, Repr

/-- `func (cb *circuitBreaker) ExecuteBlocking(ctx, fn) error`, run against a
finite oracle trace (one `BlockStep` per loop iteration; outcome `none`
means the trace was exhausted while the loop was still waiting).  Also
returns the total number of `fn` invocations and the final breaker state. -/
def ExecuteBlocking {E : Type} (cfg : Config) :
    List (BlockStep E) → CB → Option (BlockOutcome E) × Nat × CB
  | [], cb => (none, 0, cb)
  | s :: rest, cb =>
      let res := Execute cfg s.now s.r s.fnErr cb
      match res.1.timer with
      | none => (some (.result res.1.err), res.1.fnCalls, res.2)
      | some _ =>
          if s.cancelled then (some .ctxErr, res.1.fnCalls, res.2)
          else
            ((ExecuteBlocking cfg rest res.2).1,
             res.1.fnCalls + (ExecuteBlocking cfg rest res.2).2.1,
             (ExecuteBlocking cfg rest res.2).2.2)

theorem execute_result_of_timer_none {E : Type} (cfg : Config) (now : Int)
    (r : Nat) (fnErr : Option E) (cb : CB)
    (h : (Execute cfg now r fnErr cb).1.timer = none) :
    (Execute cfg now r fnErr cb).1 = ⟨none, fnErr, 1⟩ := by
  by_cases hA : (allow cfg now r cb).1.allowed = true
  · exact execute_admitted cfg now r fnErr cb hA
  · exfalso
    have hd := (execute_denied cfg now r fnErr cb (eq_false_of_ne_true hA)).1
    rw [hd] at h
    exact hA ((allow_allowed_iff_timer_none cfg now r cb).mpr h)

theorem execute_result_of_timer_some {E : Type} (cfg : Config) (now : Int)
    (r : Nat) (fnErr : Option E) (cb : CB) (d : Int)
    (h : (Execute cfg now r fnErr cb).1.timer = some d) :
    (Execute cfg now r fnErr cb).1 = ⟨some d, none, 0⟩ := by
  by_cases hA : (allow cfg now r cb).1.allowed = true
  · rw [execute_admitted cfg now r fnErr cb hA] at h
    exact absurd h (by simp)
  · have hd := (execute_denied cfg now r fnErr cb (eq_false_of_ne_true hA)).1
    rw [hd] at h
    rw [hd]
    have : (allow cfg now r cb).1.timer = some d := h
    rw [this]

theorem executeBlocking_step_admitted {E : Type} (cfg : Config)
    (s : BlockStep E) (rest : List (BlockStep E)) (cb : CB)
    (h : (Execute cfg s.now s.r s.fnErr cb).1.timer = none) :
    ExecuteBlocking cfg (s :: rest) cb =
      (some (.result s.fnErr), 1, (Execute cfg s.now s.r s.fnErr cb).2) := by
  have hres := execute_result_of_timer_none cfg s.now s.r s.fnErr cb h
  show (match (Execute cfg s.now s.r s.fnErr cb).1.timer with
        | none => (some (BlockOutcome.result (Execute cfg s.now s.r s.fnErr cb).1.err),
                   (Execute cfg s.now s.r s.fnErr cb).1.fnCalls,
                   (Execute cfg s.now s.r s.fnErr cb).2)
        | some _ =>
            if s.cancelled then
              (some BlockOutcome.ctxErr, (Execute cfg s.now s.r s.fnErr cb).1.fnCalls,
               (Execute cfg s.now s.r s.fnErr cb).2)
            else
              ((ExecuteBlocking cfg rest (Execute cfg s.now s.r s.fnErr cb).2).1,
               (Execute cfg s.now s.r s.fnErr cb).1.fnCalls +
                 (ExecuteBlocking cfg rest (Execute cfg s.now s.r s.fnErr cb).2).2.1,
               (ExecuteBlocking cfg rest (Execute cfg s.now s.r s.fnErr cb).2).2.2)) = _
  rw [hres]

theorem executeBlocking_step_refused {E : Type} (cfg : Config)
    (s : BlockStep E) (rest : List (BlockStep E)) (cb : CB) (d : Int)
    (h : (Execute cfg s.now s.r s.fnErr cb).1.timer = some d) :
    ExecuteBlocking cfg (s :: rest) cb =
      if s.cancelled then (some .ctxErr, 0, (Execute cfg s.now s.r s.fnErr cb).2)
      else
        ((ExecuteBlocking cfg rest (Execute cfg s.now s.r s.fnErr cb).2).1,
         (ExecuteBlocking cfg rest (Execute cfg s.now s.r s.fnErr cb).2).2.1,
         (ExecuteBlocking cfg rest (Execute cfg s.now s.r s.fnErr cb).2).2.2) := by
  have hres := execute_result_of_timer_some cfg s.now s.r s.fnErr cb d h
  show (match (Execute cfg s.now s.r s.fnErr cb).1.timer with
        | none => (some (BlockOutcome.result (Execute cfg s.now s.r s.fnErr cb).1.err),
                   (Execute cfg s.now s.r s.fnErr cb).1.fnCalls,
                   (Execute cfg s.now s.r s.fnErr cb).2)
        | some _ =>
            if s.cancelled then
              (some BlockOutcome.ctxErr, (Execute cfg s.now s.r s.fnErr cb).1.fnCalls,
               (Execute cfg s.now s.r s.fnErr cb).2)
            else
              ((ExecuteBlocking cfg rest (Execute cfg s.now s.r s.fnErr cb).2).1,
               (Execute cfg s.now s.r s.fnErr cb).1.fnCalls +
                 (ExecuteBlocking cfg rest (Execute cfg s.now s.r s.fnErr cb).2).2.1,
               (ExecuteBlocking cfg rest (Execute cfg s.now s.r s.fnErr cb).2).2.2)) = _
  rw [hres]
  simp

theorem executeBlocking_fnCalls {E : Type} (cfg : Config)
    (steps : List (BlockStep E)) (cb : CB) :
    ((∀ e, (ExecuteBlocking cfg steps cb).1 = some (.result e) →
        (ExecuteBlocking cfg steps cb).2.1 = 1) ∧
     ((ExecuteBlocking cfg steps cb).1 = some .ctxErr →
        (ExecuteBlocking cfg steps cb).2.1 = 0) ∧
     ((ExecuteBlocking cfg steps cb).1 = none →
        (ExecuteBlocking cfg steps cb).2.1 = 0)) := by
  induction steps generalizing cb with
  | nil => exact ⟨fun e he => by simp [ExecuteBlocking] at he, fun he => rfl, fun _ => rfl⟩
  | cons s rest ih =>
      cases ht : (Execute cfg s.now s.r s.fnErr cb).1.timer with
      | none =>
          rw [executeBlocking_step_admitted cfg s rest cb ht]
          exact ⟨fun e _ => rfl, fun he => by simp at he, fun he => by simp at he⟩
      | some d =>
          rw [executeBlocking_step_refused cfg s rest cb d ht]
          by_cases hc : s.cancelled = true
          · rw [if_pos hc]
            exact ⟨fun e he => by simp at he, fun _ => rfl, fun he => by simp at he⟩
          · rw [if_neg hc]
            exact ⟨fun e he => (ih (Execute cfg s.now s.r s.fnErr cb).2).1 e he,
              fun he => (ih (Execute cfg s.now s.r s.fnErr cb).2).2.1 he,
              fun he => (ih (Execute cfg s.now s.r s.fnErr cb).2).2.2 he⟩

/-- C8: `ExecuteBlocking` retries only when admission was refused.  When the
outcome is `fn`'s result, `fn` ran exactly once in the whole loop; a ctx
cancellation outcome (or an exhausted trace, i.e. the loop still waiting)
means `fn` never ran.  Whenever an iteration's `Execute` admits, the loop
returns `fn`'s verbatim result immediately without touching the remaining
trace, and whenever it refuses and ctx is cancelled during the wait, the
loop stops with the ctx cancellation error. -/
theorem executeBlocking_retries_only_on_refusal {E : Type} (cfg : Config) :
    (∀ (steps : List (BlockStep E)) (cb : CB) (e : Option E),
        (ExecuteBlocking cfg steps cb).1 = some (.result e) →
        (ExecuteBlocking cfg steps cb).2.1 = 1) ∧
    (∀ (steps : List (BlockStep E)) (cb : CB),
        (ExecuteBlocking cfg steps cb).1 = some .ctxErr →
        (ExecuteBlocking cfg steps cb).2.1 = 0) ∧
    (∀ (steps : List (BlockStep E)) (cb : CB),
        (ExecuteBlocking cfg steps cb).1 = none →
        (ExecuteBlocking cfg steps cb).2.1 = 0) ∧
    (∀ (s : BlockStep E) (rest : List (BlockStep E)) (cb : CB),
        (Execute cfg s.now s.r s.fnErr cb).1.timer = none →
        ExecuteBlocking cfg (s :: rest) cb =
          (some (.result s.fnErr), 1, (Execute cfg s.now s.r s.fnErr cb).2)) ∧
    (∀ (s : BlockStep E) (rest : List (BlockStep E)) (cb : CB) (d : Int),
        (Execute cfg s.now s.r s.fnErr cb).1.timer = some d →
        s.cancelled = true →
        ExecuteBlocking cfg (s :: rest) cb =
          (some .ctxErr, 0, (Execute cfg s.now s.r s.fnErr cb).2)) := by
  refine ⟨fun steps cb e => (executeBlocking_fnCalls cfg steps cb).1 e,
    fun steps cb => (executeBlocking_fnCalls cfg steps cb).2.1,
    fun steps cb => (executeBlocking_fnCalls cfg steps cb).2.2,
    fun s rest cb h => executeBlocking_step_admitted cfg s rest cb h,
    fun s rest cb d h hc => ?_⟩
  rw [executeBlocking_step_refused cfg s rest cb d h, if_pos hc]

/-- Closed-input check for `executeBlocking_retries_only_on_refusal`: on an
Open breaker the first iteration is refused and a cancelled wait returns the
ctx error with `fn` never invoked; on a fresh breaker an admitted iteration
returns `fn`'s error verbatim. -/
theorem executeBlocking_retries_only_on_refusal_witness :
    ExecuteBlocking (E := Nat) defaultConfig [⟨0, 0, some 9, true⟩]
      ⟨.Open, 0, 0, 0, 100⟩ =
      (some .ctxErr, 0,
       (Execute defaultConfig 0 0 (some 9) ⟨.Open, 0, 0, 0, 100⟩).2) ∧
    ExecuteBlocking (E := Nat) defaultConfig [⟨0, 0, some 9, false⟩] freshBreaker =
      (some (.result (some 9)), 1,
       (Execute defaultConfig 0 0 (some 9) freshBreaker).2) := by
  have h := executeBlocking_retries_only_on_refusal (E := Nat) defaultConfig
  exact ⟨h.2.2.2.2 ⟨0, 0, some 9, true⟩ [] ⟨.Open, 0, 0, 0, 100⟩ 100 (by decide) rfl,
    h.2.2.2.1 ⟨0, 0, some 9, false⟩ [] freshBreaker (by decide)⟩

/-! ### C9, C10: construction options, `New`, `NewZeroTolerance`

The `Option` values of `options.go` are closures over a `config`; they are
embedded as a syntactic datatype `OptionSpec` together with its
interpretation `applyOption`, one arm per `With*` constructor of the
source. -/

inductive OptionSpec where
  | withClock (clock : ClockM)
  | withWindowSize (windowSize : Int)
  | withMaximumProbes (probes : Int)
  | withSuccessToClose (successToClose : Int)
  | withCooldownTimer (timer : Int)
  | withResetTimer (timer : Int)
  | withFailureThreshold (threshold : Int)
deriving DecidableEq, Repr

/-- The closure returned by each `With*` constructor, applied to a config
(durations already converted to nanoseconds, as `Nanoseconds()` does). -/
def applyOption : OptionSpec → Config → Except String Config
  | .withClock cl, c => .ok { c with clock := cl }
  | .withWindowSize w, c =>
      if w ≤ 0 then .error "windowSize must be >0"
      else .ok { c with windowSize := w }
  | .withMaximumProbes p, c =>
      if p ≤ 0 then .error "maximum probes must be >0"
      else .ok { c with maximumProbes := p }
  | .withSuccessToClose s, c =>
      if s ≤ 0 then .error "successToClose must be >0"
      else .ok { c with successToClose := s }
  | .withCooldownTimer t, c =>
      if t ≤ 0 then .error "timer must be >0"
      else .ok { c with cooldownTimer := t }
  | .withResetTimer t, c =>
      if t ≤ 0 then .error "timer must be >0"
      else .ok { c with resetTimer := t }
  | .withFailureThreshold t, c =>
      if t ≤ 0 then .error "threshold must be >0"
      else .ok { c with failureThreshold := t }

/-- The option loop of `New`: apply each option in order, wrapping and
returning the first failure. -/
def applyOpts : List OptionSpec → Config → Except String Config
  | [], c => .ok c
  | o :: rest, c =>
      match applyOption o c with
      | .error e => .error ("unable to apply configuration: " ++ e)
      | .ok c' => applyOpts rest c'

/-- `func New(opts ...Option) (CircuitBreaker, error)`: the configuration it
builds (an `.ok` config is handed to `newCircuitBreaker`; on `.error` no
breaker is produced). -/
def New (opts : List OptionSpec) : Except String Config :=
  applyOpts opts defaultConfig

/-- `func NewZeroTolerance(opts ...Option)`: prepends
`WithFailureThreshold(1)` to the caller's options. -/
def NewZeroTolerance (opts : List OptionSpec) : Except String Config :=
  New (.withFailureThreshold 1 :: opts)

theorem applyOpts_cons_ok (o : OptionSpec) (rest : List OptionSpec) (c cm : Config)
    (h : applyOption o c = .ok cm) :
    applyOpts (o :: rest) c = applyOpts rest cm := by
  simp only [applyOpts, h]

theorem applyOpts_cons_err (o : OptionSpec) (rest : List OptionSpec) (c : Config)
    (e : String) (h : applyOption o c = .error e) :
    applyOpts (o :: rest) c = .error ("unable to apply configuration: " ++ e) := by
  simp only [applyOpts, h]

theorem applyOption_nonThreshold (o : OptionSpec) (c c' : Config)
    (ho : ∀ n, o ≠ .withFailureThreshold n)
    (h : applyOption o c = .ok c') :
    c'.failureThreshold = c.failureThreshold := by
  cases o with
  | withClock cl =>
      simp only [applyOption, Except.ok.injEq] at h
      rw [← h]
  | withWindowSize w =>
      simp only [applyOption] at h
      split at h
      · exact absurd h (by simp)
      · rw [← (Except.ok.injEq _ _).mp h]
  | withMaximumProbes p =>
      simp only [applyOption] at h
      split at h
      · exact absurd h (by simp)
      · rw [← (Except.ok.injEq _ _).mp h]
  | withSuccessToClose s =>
      simp only [applyOption] at h
      split at h
      · exact absurd h (by simp)
      · rw [← (Except.ok.injEq _ _).mp h]
  | withCooldownTimer t =>
      simp only [applyOption] at h
      split at h
      · exact absurd h (by simp)
      · rw [← (Except.ok.injEq _ _).mp h]
  | withResetTimer t =>
      simp only [applyOption] at h
      split at h
      · exact absurd h (by simp)
      · rw [← (Except.ok.injEq _ _).mp h]
  | withFailureThreshold n => exact absurd rfl (ho n)

theorem applyOpts_nonThreshold (opts : List OptionSpec) :
    ∀ (c c' : Config),
    (∀ o ∈ opts, ∀ n, o ≠ .withFailureThreshold n) →
    applyOpts opts c = .ok c' →
    c'.failureThreshold = c.failureThreshold := by
  induction opts with
  | nil =>
      intro c c' _ h
      simp only [applyOpts, Except.ok.injEq] at h
      rw [← h]
  | cons o rest ih =>
      intro c c' ho h
      cases happ : applyOption o c with
      | error e =>
          rw [applyOpts_cons_err o rest c e happ] at h
          exact absurd h (by simp)
      | ok cm =>
          rw [applyOpts_cons_ok o rest c cm happ] at h
          have h1 := applyOption_nonThreshold o c cm
            (ho o (List.mem_cons_self o rest)) happ
          have h2 := ih cm c' (fun q hq => ho q (List.mem_cons_of_mem o hq)) h
          rw [h2, h1]

theorem applyOpts_failing_member (o : OptionSpec)
    (ho : ∀ c', ∃ e, applyOption o c' = .error e) (pre post : List OptionSpec) :
    ∀ c : Config, ∃ e, applyOpts (pre ++ o :: post) c = .error e := by
  induction pre with
  | nil =>
      intro c
      obtain ⟨e, he⟩ := ho c
      exact ⟨"unable to apply configuration: " ++ e, by
        rw [List.nil_append]
        exact applyOpts_cons_err o post c e he⟩
  | cons p pre ih =>
      intro c
      cases hp : applyOption p c with
      | error e =>
          exact ⟨"unable to apply configuration: " ++ e, by
            rw [List.cons_append]
            exact applyOpts_cons_err p (pre ++ o :: post) c e hp⟩
      | ok cm =>
          obtain ⟨e, he⟩ := ih cm
          exact ⟨e, by
            rw [List.cons_append, applyOpts_cons_ok p (pre ++ o :: post) c cm hp]
            exact he⟩

/-- C9: each numeric/duration construction option rejects its argument
exactly when it is out of range (`≤ 0`) and otherwise sets the
corresponding field; `withClock` accepts every clock (it has no out-of-range
values); and whenever an option in the list fails, `New` returns a
construction error, so no breaker is produced. -/
theorem options_validate :
    (∀ (cl : ClockM) (c : Config),
        applyOption (.withClock cl) c = .ok { c with clock := cl }) ∧
    (∀ (w : Int) (c : Config),
        (w ≤ 0 → applyOption (.withWindowSize w) c = .error "windowSize must be >0") ∧
        (0 < w → applyOption (.withWindowSize w) c = .ok { c with windowSize := w })) ∧
    (∀ (p : Int) (c : Config),
        (p ≤ 0 → applyOption (.withMaximumProbes p) c = .error "maximum probes must be >0") ∧
        (0 < p → applyOption (.withMaximumProbes p) c = .ok { c with maximumProbes := p })) ∧
    (∀ (s : Int) (c : Config),
        (s ≤ 0 → applyOption (.withSuccessToClose s) c = .error "successToClose must be >0") ∧
        (0 < s → applyOption (.withSuccessToClose s) c = .ok { c with successToClose := s })) ∧
    (∀ (t : Int) (c : Config),
        (t ≤ 0 → applyOption (.withCooldownTimer t) c = .error "timer must be >0") ∧
        (0 < t → applyOption (.withCooldownTimer t) c = .ok { c with cooldownTimer := t })) ∧
    (∀ (t : Int) (c : Config),
        (t ≤ 0 → applyOption (.withResetTimer t) c = .error "timer must be >0") ∧
        (0 < t → applyOption (.withResetTimer t) c = .ok { c with resetTimer := t })) ∧
    (∀ (t : Int) (c : Config),
        (t ≤ 0 → applyOption (.withFailureThreshold t) c = .error "threshold must be >0") ∧
        (0 < t → applyOption (.withFailureThreshold t) c = .ok { c with failureThreshold := t })) ∧
    (∀ (pre post : List OptionSpec) (o : OptionSpec),
        (∀ c, ∃ e, applyOption o c = .error e) →
        ∃ e, New (pre ++ o :: post) = .error e) := by
  refine ⟨fun cl c => rfl,
    fun w c => ⟨fun h => ?_, fun h => ?_⟩,
    fun p c => ⟨fun h => ?_, fun h => ?_⟩,
    fun s c => ⟨fun h => ?_, fun h => ?_⟩,
    fun t c => ⟨fun h => ?_, fun h => ?_⟩,
    fun t c => ⟨fun h => ?_, fun h => ?_⟩,
    fun t c => ⟨fun h => ?_, fun h => ?_⟩,
    fun pre post o ho => applyOpts_failing_member o ho pre post defaultConfig⟩ <;>
    simp only [applyOption] <;> first
      | rw [if_pos h]
      | rw [if_neg (by omega)]

/-- Closed-input check for `options_validate`: `withWindowSize 0` is
rejected, `withWindowSize 7` sets the field, and a `New` call containing a
failing `withMaximumProbes 0` errors out. -/
theorem options_validate_witness :
    applyOption (.withWindowSize 0) defaultConfig = .error "windowSize must be >0" ∧
    applyOption (.withWindowSize 7) defaultConfig =
      .ok { defaultConfig with windowSize := 7 } ∧
    New ([.withSuccessToClose 2] ++ .withMaximumProbes 0 :: []) =
      .error "unable to apply configuration: maximum probes must be >0" := by
  refine ⟨(options_validate.2.1 0 defaultConfig).1 (by decide),
    (options_validate.2.1 7 defaultConfig).2 (by decide), ?_⟩
  obtain ⟨e, he⟩ := options_validate.2.2.2.2.2.2.2 [.withSuccessToClose 2] []
    (.withMaximumProbes 0) (fun c => ⟨"maximum probes must be >0", rfl⟩)
  rw [he]
  have : e = "unable to apply configuration: maximum probes must be >0" := by
    have h2 : Except.error (ε := String) (α := Config) e =
        .error "unable to apply configuration: maximum probes must be >0" := by
      rw [← he]; rfl
    exact (Except.error.injEq _ _).mp h2
  rw [this]

/-- C10: `NewZeroTolerance` prepends `WithFailureThreshold(1)` to the
caller-supplied options, so without a caller threshold option the resulting
configuration has `failureThreshold = 1`, and a caller-supplied
`WithFailureThreshold(n)` (not overridden later in the list) yields
`failureThreshold = n`. -/
theorem newZeroTolerance_threshold :
    (∀ opts : List OptionSpec,
        NewZeroTolerance opts = New (.withFailureThreshold 1 :: opts)) ∧
    (∀ (opts : List OptionSpec) (c : Config),
        (∀ o ∈ opts, ∀ n, o ≠ .withFailureThreshold n) →
        NewZeroTolerance opts = .ok c → c.failureThreshold = 1) ∧
    (∀ (pre post : List OptionSpec) (n : Int) (c : Config),
        (∀ o ∈ post, ∀ m, o ≠ .withFailureThreshold m) →
        NewZeroTolerance (pre ++ .withFailureThreshold n :: post) = .ok c →
        c.failureThreshold = n) := by
  have hfirst : ∀ opts : List OptionSpec,
      applyOpts (.withFailureThreshold 1 :: opts) defaultConfig =
        applyOpts opts { defaultConfig with failureThreshold := 1 } := by
    intro opts
    exact applyOpts_cons_ok (.withFailureThreshold 1) opts defaultConfig
      { defaultConfig with failureThreshold := 1 } rfl
  refine ⟨fun opts => rfl, fun opts c ho h => ?_, fun pre post n c ho h => ?_⟩
  · rw [show NewZeroTolerance opts =
        applyOpts (.withFailureThreshold 1 :: opts) defaultConfig from rfl,
      hfirst opts] at h
    exact applyOpts_nonThreshold opts _ c ho h
  · rw [show NewZeroTolerance (pre ++ .withFailureThreshold n :: post) =
        applyOpts (.withFailureThreshold 1 :: (pre ++ .withFailureThreshold n :: post))
          defaultConfig from rfl,
      hfirst _] at h
    -- split the list at the caller's threshold option
    revert h
    generalize { defaultConfig with failureThreshold := 1 } = c0
    induction pre generalizing c0 with
    | nil =>
        intro h
        rw [List.nil_append] at h
        by_cases hn : n ≤ 0
        · rw [applyOpts_cons_err (.withFailureThreshold n) post c0 "threshold must be >0"
            (by simp only [applyOption]; rw [if_pos hn])] at h
          exact absurd h (by simp)
        · rw [applyOpts_cons_ok (.withFailureThreshold n) post c0
            { c0 with failureThreshold := n }
            (by simp only [applyOption]; rw [if_neg hn])] at h
          exact applyOpts_nonThreshold post _ c ho h
    | cons p pre ih =>
        intro h
        rw [List.cons_append] at h
        cases hp : applyOption p c0 with
        | error e =>
            rw [applyOpts_cons_err p _ c0 e hp] at h
            exact absurd h (by simp)
        | ok cm =>
            rw [applyOpts_cons_ok p _ c0 cm hp] at h
            exact ih cm h

/-- Closed-input check for `newZeroTolerance_threshold`: with no caller
threshold option the built config has threshold 1; with a caller
`withFailureThreshold 5` it has threshold 5. -/
theorem newZeroTolerance_threshold_witness :
    ({ defaultConfig with failureThreshold := 1, cooldownTimer := 30 } :
      Config).failureThreshold = 1 ∧
    ({ defaultConfig with failureThreshold := 5 } : Config).failureThreshold = 5 :=
  ⟨newZeroTolerance_threshold.2.1 [.withCooldownTimer 30]
      { defaultConfig with failureThreshold := 1, cooldownTimer := 30 }
      (by intro o ho n; simp at ho; rw [ho]; simp) rfl,
   newZeroTolerance_threshold.2.2 [] [] 5 { defaultConfig with failureThreshold := 5 }
      (by intro o ho m; exact absurd ho (List.not_mem_nil o)) rfl⟩

end CircuitBreakerProof
